import Mathlib

/-!
Verification of the Keycloak IdP-redirector demo's protocol core
(`src/providers/keycloak/KeycloakProvider.js` and the callback component
`src/components/Callback.js`) against its natural-language specification.

The JavaScript is shallowly embedded: browser storage
(`sessionStorage`/`localStorage`) becomes an association list threaded
explicitly, `fetch` responses become data supplied in an environment record,
promise resolution/rejection becomes an explicit result inductive, and JS
string truthiness (`x || y`, where both `undefined` and `""` are falsy) is
modelled by `jsTruthy` on `Option String`.
-/

namespace KeycloakDemo

/-! ## Browser storage model

`sessionStorage` / `localStorage` are string-keyed string stores; we model
each as an association list with the usual `getItem` / `setItem` /
`removeItem` operations. -/

abbrev Store := List (String × String)

def storeGet : Store → String → Option String
  | [], _ => none
  | (k, v) :: rest, key => if k = key then some v else storeGet rest key

def storeSet : Store → String → String → Store
  | [], key, v => [(key, v)]
  | (k, w) :: rest, key, v =>
      if k = key then (k, v) :: rest else (k, w) :: storeSet rest key v

def storeRemove : Store → String → Store
  | [], _ => []
  | (k, v) :: rest, key =>
      if k = key then storeRemove rest key else (k, v) :: storeRemove rest key

/-- The whole browser-visible mutable state the provider touches:
both storage scopes plus the module-level `window.callbackProcessed` flag. -/
structure AppStorage where
  sessionStore : Store
  localStore : Store
  callbackProcessed : Bool
deriving DecidableEq, Repr

/-- Fixed transaction-scope key holding the PKCE verifier
(`'keycloak_code_verifier'` in the source). -/
def verifierKey : String := "keycloak_code_verifier"

/-- Fixed transaction-scope key holding the id token
(`'keycloak_id_token'` in the source). -/
def idTokenKey : String := "keycloak_id_token"

/-! ## Provider configuration (constructor + isConfigured) -/

/-- The three `process.env.REACT_APP_KEYCLOAK_*` settings; `none` models an
unset variable, `some s` a set one (possibly empty). -/
structure EnvConfig where
  keycloakUrl : Option String
  keycloakRealm : Option String
  keycloakClientId : Option String
deriving DecidableEq, Repr

/-- JS `x || d` on a string-or-undefined `x`: both `undefined` and the empty
string are falsy and fall through to the default. -/
def jsOrDefault (v : Option String) (d : String) : String :=
  match v with
  | none => d
  | some s => if s = "" then d else s

/-- JS truthiness of a string-or-undefined value. -/
def jsTruthy : Option String → Bool
  | none => false
  | some s => !(s == "")

structure KeycloakProvider where
  baseUrl : String
  realm : String
  clientId : String
deriving DecidableEq, Repr

/-- Constructor `new KeycloakProvider()`: each field is the environment value with a
non-empty literal default (`||` fallback). -/
def KeycloakProvider.ofEnv (e : EnvConfig) : KeycloakProvider :=
  { baseUrl := jsOrDefault e.keycloakUrl "http://localhost:8080/auth"
    realm := jsOrDefault e.keycloakRealm "idp-redirector-demo"
    clientId := jsOrDefault e.keycloakClientId "react-oidc-app" }

/-- Source `isConfigured()`: `!!(this.baseUrl && this.realm && this.clientId)` —
true iff all three strings are non-empty (JS truthiness). -/
def KeycloakProvider.isConfigured (p : KeycloakProvider) : Bool :=
  !(p.baseUrl == "") && !(p.realm == "") && !(p.clientId == "")

/-! ## Domain router -/

/-- JS `str.split(sep)` for a one-character separator, on the character list. -/
def splitChar (sep : Char) : List Char → List (List Char)
  | [] => [[]]
  | c :: cs =>
      match splitChar sep cs with
      | [] => [[c]]
      | g :: gs => if c = sep then [] :: g :: gs else (c :: g) :: gs

/-- The static `domainMappings` table of `determineLoginHintFromEmail`.
Keys are compared as (lowercased) character lists. -/
def domainMappings (d : List Char) : Option String :=
  if d = "gmail.com".toList then some "google"
  else if d = "outlook.com".toList then some "microsoft"
  else if d = "hotmail.com".toList then some "microsoft"
  else if d = "live.com".toList then some "microsoft"
  else if d = "msn.com".toList then some "microsoft"
  else none

/-- Source `determineLoginHintFromEmail(email)`:
`email.split('@')[1]?.toLowerCase()` looked up in `domainMappings`, with
`undefined` (no second segment / no table entry) returned as `none`.
Note the source indexes `[1]`: the segment between the first `@` and the
next `@` (or the end), not the substring after the last `@`.
`Char.toLower` is the ASCII approximation of JS `toLowerCase()`. -/
def determineLoginHintFromEmail (email : String) : Option String :=
  (((splitChar '@' email.toList).get? 1).map (List.map Char.toLower)).bind domainMappings

/-- ECMAScript regex `\s` character class. -/
def jsWhitespace (c : Char) : Bool :=
  c.toNat = 9 || c.toNat = 10 || c.toNat = 11 || c.toNat = 12 || c.toNat = 13 ||
  c.toNat = 32 || c.toNat = 160 || c.toNat = 0x1680 ||
  (0x2000 ≤ c.toNat && c.toNat ≤ 0x200A) ||
  c.toNat = 0x2028 || c.toNat = 0x2029 || c.toNat = 0x202F || c.toNat = 0x205F ||
  c.toNat = 0x3000 || c.toNat = 0xFEFF

/-- A character matching the regex class `[^\s@]`. -/
def okChar (c : Char) : Bool := !(jsWhitespace c) && !(c == '@')

/-- Source `isValidEmail(email)`: the test `/^[^\s@]+@[^\s@]+\.[^\s@]+$/.test(email)`.
Since `@` is excluded from every character class, a match decomposes the
string uniquely as `l ++ '@' :: d` where `l` is the maximal leading run of
`[^\s@]` characters (so `l` is `takeWhile okChar` and the next character must
be `'@'`), `d` consists of `[^\s@]` characters, and `d` splits as
`a ++ '.' :: b` with `a`, `b` non-empty — i.e. `d` has a `'.'` at some
position that is neither its first nor its last character. -/
def isValidEmail (email : String) : Bool :=
  match (email.toList).span okChar with
  | (l, c :: d) =>
      !(l.isEmpty) && (c == '@') && d.all okChar && ((d.drop 1).dropLast.contains '.')
  | (_, []) => false

/-! ## Token / identity data -/

structure Tokens where
  access_token : String
  id_token : Option String
deriving DecidableEq, Repr

/-- Raw userinfo-endpoint claims consumed by `normalizeUser`. `none` models
an absent claim; `some ""` a present-but-empty one (JS distinguishes the two
only through truthiness). -/
structure UserClaims where
  sub : String
  name : Option String
  preferred_username : Option String
  email : Option String
  picture : Option String
deriving DecidableEq, Repr

structure Identity where
  id : String
  name : String
  email : Option String
  picture : Option String
  provider : String
deriving DecidableEq, Repr

/-- Source `normalizeUser(user)`: `name` is the JS truthiness chain
`user.name || user.preferred_username || 'Unknown User'`, and `provider` is
the literal `'keycloak'`. -/
def normalizeUser (u : UserClaims) : Identity :=
  { id := u.sub
    name :=
      if jsTruthy u.name then u.name.getD ""
      else if jsTruthy u.preferred_username then u.preferred_username.getD ""
      else "Unknown User"
    email := u.email
    picture := u.picture
    provider := "keycloak" }

/-! ## handleCallback -/

/-- An HTTP response as observed by the code: `ok`/`status`, the body text
used in error messages, and (for 2xx responses) the parsed JSON payload. -/
structure HttpResp (α : Type) where
  ok : Bool
  status : Nat
  bodyText : String
  payload : α
deriving DecidableEq, Repr

/-- The two network round-trips of `handleCallback`, supplied as data. -/
structure CallbackNet where
  tokenResp : HttpResp Tokens
  userResp : HttpResp UserClaims
deriving DecidableEq, Repr

/-- The throw sites of `handleCallback`. The source throws `Error` objects
whose messages are, respectively, `'PKCE code verifier not found. …'`,
`'Token exchange failed: <status> - <body>'` and
`'Failed to get user info: <status> - <body>'`. -/
inductive CbError
  | MissingVerifier
  | TokenExchangeFailed (status : Nat) (body : String)
  | UserInfoFailed (status : Nat) (body : String)
deriving DecidableEq, Repr

structure CbResult where
  tokens : Tokens
  user : Identity
deriving DecidableEq, Repr

/-- Promise outcome of `handleCallback`. -/
inductive CbResultOrError
  | failure (e : CbError)
  | success (r : CbResult)
deriving DecidableEq, Repr

/-- Network requests issued during callback handling (used to state that a
replayed callback fails before any token request is issued). -/
inductive NetRequest
  | tokenExchange (clientId code redirectUri verifier : String)
  | userInfo (accessToken : String)
deriving DecidableEq, Repr

structure CbOutcome where
  result : CbResultOrError
  store : AppStorage
  requests : List NetRequest
deriving DecidableEq, Repr

/-- Source `handleCallback(code, redirectUri)`, step for step:
read the verifier (throw `MissingVerifier` if absent); POST the token
exchange (throw `TokenExchangeFailed` on non-ok); persist `id_token` when
present; GET userinfo (throw `UserInfoFailed` on non-ok); only then remove
the verifier (`sessionStorage.removeItem` is the last statement before the
successful return) and return the tokens with the normalized user. -/
def KeycloakProvider.handleCallback (p : KeycloakProvider) (net : CallbackNet)
    (code redirectUri : String) (st : AppStorage) : CbOutcome :=
  match storeGet st.sessionStore verifierKey with
  | none => { result := .failure .MissingVerifier, store := st, requests := [] }
  | some codeVerifier =>
    let tokenReq := NetRequest.tokenExchange p.clientId code redirectUri codeVerifier
    let tr := net.tokenResp
    if !tr.ok then
      { result := .failure (.TokenExchangeFailed tr.status tr.bodyText)
        store := st, requests := [tokenReq] }
    else
      let tokens := tr.payload
      let st1 :=
        match tokens.id_token with
        | some idt => { st with sessionStore := storeSet st.sessionStore idTokenKey idt }
        | none => st
      let ur := net.userResp
      let reqs := [tokenReq, NetRequest.userInfo tokens.access_token]
      if !ur.ok then
        { result := .failure (.UserInfoFailed ur.status ur.bodyText)
          store := st1, requests := reqs }
      else
        let st2 := { st1 with sessionStore := storeRemove st1.sessionStore verifierKey }
        { result := .success { tokens := tokens, user := normalizeUser ur.payload }
          store := st2, requests := reqs }

/-! ## buildAuthUrl / login -/

/-- The authorization URL, kept structured: the endpoint is
`{baseUrl}/realms/{realm}/protocol/openid-connect/auth` and `query` is the
`URLSearchParams` pair list in insertion order (serialization to the final
string is URL-encoding glue and is not modelled). -/
structure AuthUrl where
  baseUrl : String
  realm : String
  query : List (String × String)
deriving DecidableEq, Repr

/-- Source `buildAuthUrl(redirectUri, scope, loginHint)`. The PKCE generator lives
in `utils/pkce` outside the provider; the freshly generated `codeVerifier`
and its derived `codeChallenge` are therefore taken as parameters. The
verifier is stored under `verifierKey` before the URL is assembled, and
`kc_idp_hint` is appended exactly when
`loginHint && (loginHint === 'google' || loginHint === 'microsoft')`. -/
def KeycloakProvider.buildAuthUrl (p : KeycloakProvider)
    (codeVerifier codeChallenge redirectUri scope : String)
    (loginHint : Option String) (st : AppStorage) : AuthUrl × AppStorage :=
  let st1 := { st with sessionStore := storeSet st.sessionStore verifierKey codeVerifier }
  let baseParams : List (String × String) :=
    [("response_type", "code"), ("client_id", p.clientId),
     ("redirect_uri", redirectUri), ("scope", scope),
     ("code_challenge", codeChallenge), ("code_challenge_method", "S256")]
  let params :=
    match loginHint with
    | some h =>
        if h == "google" || h == "microsoft" then baseParams ++ [("kc_idp_hint", h)]
        else baseParams
    | none => baseParams
  ({ baseUrl := p.baseUrl, realm := p.realm, query := params }, st1)

/-- Outcome of `login`: either the thrown `'Keycloak not configured'` error,
or the full-page redirect to the built authorization URL together with the
storage as updated by `buildAuthUrl`. -/
inductive LoginOutcome
  | notConfiguredError
  | redirect (target : AuthUrl) (st : AppStorage)
deriving DecidableEq, Repr

/-- Source `login(redirectUri, loginHint)`: throws if `!isConfigured()`, otherwise
builds the auth URL with scope `'openid email profile'` and navigates. -/
def KeycloakProvider.login (p : KeycloakProvider)
    (codeVerifier codeChallenge redirectUri : String)
    (loginHint : Option String) (st : AppStorage) : LoginOutcome :=
  if !p.isConfigured then .notConfiguredError
  else
    let (authUrl, st1) :=
      p.buildAuthUrl codeVerifier codeChallenge redirectUri "openid email profile" loginHint st
    .redirect authUrl st1

/-! ## logout -/

/-- Source `clearLocalStorage()`: removes `access_token`, `user_info`,
`auth_provider` from localStorage, the verifier and id-token keys from
sessionStorage, and deletes `window.callbackProcessed`. (Note it does not
touch the `identity_provider` key that `Callback.js` writes.) -/
def clearLocalStorage (st : AppStorage) : AppStorage :=
  { localStore :=
      storeRemove (storeRemove (storeRemove st.localStore "access_token") "user_info")
        "auth_provider"
    sessionStore := storeRemove (storeRemove st.sessionStore verifierKey) idTokenKey
    callbackProcessed := false }

/-- The primitive operations inside `logout()`'s `try` block at which a JS
exception can arise (in source order); `JSON.parse` of a corrupted
`user_info` record is the `atParseUserInfo` case. -/
inductive LogoutStep
  | atReadIdToken
  | atParseUserInfo
  | atReadProviderLabel
  | atBuildLogoutUrl
deriving DecidableEq, Repr

/-- Input state of `logout()`: the storage plus an oracle saying which
primitive (if any) raises when executed — modelling JS exception
nondeterminism, e.g. `raises = some .atParseUserInfo` for a state whose
persisted `user_info` string is unparsable JSON. -/
structure LogoutState where
  store : AppStorage
  raises : Option LogoutStep
deriving DecidableEq, Repr

/-- The broker end-session URL
`{baseUrl}/realms/{realm}/protocol/openid-connect/logout?client_id=…&id_token_hint=…&post_logout_redirect_uri=…`,
kept structured. -/
structure EndSessionUrl where
  baseUrl : String
  realm : String
  clientId : String
  idTokenHint : String
  postLogoutRedirectUri : String
deriving DecidableEq, Repr

inductive NavTarget
  | appRoot
  | brokerEndSession (u : EndSessionUrl)
deriving DecidableEq, Repr

structure LogoutOutcome where
  store : AppStorage
  nav : NavTarget
  iframeSrc : Option String
deriving DecidableEq, Repr

/-- Source `performIdpSpecificLogout(identityProvider, idToken)`: returns early on a
falsy provider or token, otherwise yields the hidden-iframe `src` for the
recognized providers. Its internal `try`/`catch` swallows failures. -/
def performIdpSpecificLogout (identityProvider idToken : Option String) : Option String :=
  if !(jsTruthy identityProvider) || !(jsTruthy idToken) then none
  else if identityProvider == some "Google" then some "https://accounts.google.com/logout"
  else if identityProvider == some "Microsoft" then
    some "https://login.microsoftonline.com/common/oauth2/v2.0/logout"
  else none

/-- The `try` block of `logout()` (source order): read the id token, parse
the stored `user_info` (used only for logging), read the
`identity_provider` label; with an id token, build the end-session URL, run
`clearLocalStorage()`, create the best-effort IdP-logout iframe and navigate
to the end-session URL; without one, run `clearLocalStorage()` and navigate
to the application root. A step raises when the oracle flags it. -/
def tryLogoutBody (p : KeycloakProvider) (origin : String) (ls : LogoutState) :
    Except LogoutStep LogoutOutcome :=
  if ls.raises = some .atReadIdToken then .error .atReadIdToken else
  let idToken := storeGet ls.store.sessionStore idTokenKey
  if ls.raises = some .atParseUserInfo then .error .atParseUserInfo else
  if ls.raises = some .atReadProviderLabel then .error .atReadProviderLabel else
  let identityProvider := storeGet ls.store.localStore "identity_provider"
  match idToken with
  | some idt =>
    if ls.raises = some .atBuildLogoutUrl then .error .atBuildLogoutUrl else
    let url : EndSessionUrl :=
      { baseUrl := p.baseUrl, realm := p.realm, clientId := p.clientId
        idTokenHint := idt, postLogoutRedirectUri := origin ++ "/" }
    .ok { store := clearLocalStorage ls.store
          nav := .brokerEndSession url
          iframeSrc := performIdpSpecificLogout identityProvider (some idt) }
  | none =>
    .ok { store := clearLocalStorage ls.store, nav := .appRoot, iframeSrc := none }

/-- Source `logout()`: the `try` body with its catch-all `catch` branch, which
falls back to `clearLocalStorage()` plus navigation to `'/'`. Totality of
this function is the model of "no exception propagates to the caller". -/
def KeycloakProvider.logout (p : KeycloakProvider) (origin : String)
    (ls : LogoutState) : LogoutOutcome :=
  match tryLogoutBody p origin ls with
  | .ok r => r
  | .error _ => { store := clearLocalStorage ls.store, nav := .appRoot, iframeSrc := none }

/-! ## Callback component guard (`Callback.js` useEffect handler) -/

/-- Page state seen by the callback component's handler: the module-level
`window.callbackProcessed` flag together with the (fixed for one page load)
`error` / `code` query parameters. -/
structure CbPageState where
  processed : Bool
  urlError : Option String
  urlCode : Option String
deriving DecidableEq, Repr

/-- What one invocation of the component's `handleCallback` closure did. -/
inductive CbAct
  | skipped
  | errorShown (e : String)
  | noCode
  | invokedExchange (code : String)
deriving DecidableEq, Repr

/-- One invocation of the component handler: return immediately when the
guard flag is set; otherwise set the flag, then surface an `error`
parameter, or the absence of a `code`, or invoke the provider's
`handleCallback` with the code. -/
def callbackTick (st : CbPageState) : CbPageState × CbAct :=
  if st.processed then (st, .skipped)
  else
    let st' := { st with processed := true }
    match st.urlError with
    | some e => (st', .errorShown e)
    | none =>
      match st.urlCode with
      | none => (st', .noCode)
      | some c => (st', .invokedExchange c)

/-- Number of invocations, among `n` successive ones, that pass the guard
(i.e. that execute a callback-handling attempt). -/
def attemptCount : CbPageState → Nat → Nat
  | _, 0 => 0
  | st, n + 1 =>
      let (st', a) := callbackTick st
      (if a = .skipped then 0 else 1) + attemptCount st' n

/-! ## Claim-side definitions

Each definition below follows the words of a spec sentence (not the source);
they exist to be compared with the source-derived definitions above. -/

/-- From the spec's words for the domain router: lowercase the substring
after the LAST `@` and look it up in the table; `none` when the email has no
`@`. To be compared with `determineLoginHintFromEmail`. -/
def hintAfterLastAt (email : String) : Option String :=
  let parts := splitChar '@' email.toList
  if parts.length ≤ 1 then none
  else ((parts.getLast?).map (List.map Char.toLower)).bind domainMappings

/-- The source semantics of `split('@')[1]`, written independently of
`splitChar`: the segment strictly between the first `@` and the next `@`
(or the end); `none` when there is no `@` at all. -/
def segmentAfterFirstAt (cs : List Char) : Option (List Char) :=
  match cs.dropWhile (fun c => !(c == '@')) with
  | [] => none
  | _ :: rest => some (rest.takeWhile (fun c => !(c == '@')))

/-- From the claim's words for `isValidEmail`: the string has a non-empty
local part, an `@`, and a non-empty domain part containing at least one
`.` — i.e. some split at an `@` leaves a non-empty part on the left and a
non-empty part containing a `.` on the right. To be compared with
`isValidEmail`. -/
def hasClaimShape (email : String) : Bool :=
  let cs := email.toList
  (List.range cs.length).any fun i =>
    (cs.get? i == some '@') && decide (0 < i) &&
    !((cs.drop (i + 1)).isEmpty) && ((cs.drop (i + 1)).contains '.')

/-- From the claim's words for `normalizeUser`: name is the display name if
present, otherwise the preferred-username claim if present, otherwise the
fallback literal; provider is the constant `"broker"`. To be compared with
`normalizeUser`. -/
def normalizeUserClaimed (u : UserClaims) : Identity :=
  { id := u.sub
    name :=
      match u.name with
      | some n => n
      | none =>
        match u.preferred_username with
        | some pu => pu
        | none => "Unknown User"
    email := u.email
    picture := u.picture
    provider := "broker" }

/-- The amended reading of the normalization claim: a claim is preferred
only when present AND non-empty (JS `||` treats `""` as absent), and the
provider constant is the source literal `"keycloak"`. -/
def identityPerAmendedClaim (u : UserClaims) : Identity :=
  { id := u.sub
    name :=
      match u.name with
      | some n =>
        if n = "" then
          match u.preferred_username with
          | some pu => if pu = "" then "Unknown User" else pu
          | none => "Unknown User"
        else n
      | none =>
        match u.preferred_username with
        | some pu => if pu = "" then "Unknown User" else pu
        | none => "Unknown User"
    email := u.email
    picture := u.picture
    provider := "keycloak" }

/-! ## Concrete fixtures used by counterexamples and witnesses -/

/-- Provider built from an empty environment (all defaults). -/
def p0 : KeycloakProvider := KeycloakProvider.ofEnv ⟨none, none, none⟩

/-- Storage holding a fresh PKCE verifier, as left by `buildAuthUrl`. -/
def stWithVerifier : AppStorage := ⟨[(verifierKey, "ver1")], [], false⟩

/-- Network environment of spec scenario D: token exchange succeeds,
userinfo returns HTTP 401. -/
def netUserInfo401 : CallbackNet :=
  { tokenResp := ⟨true, 200, "", ⟨"AT1", some "IT1"⟩⟩
    userResp := ⟨false, 401, "unauthorized", ⟨"", none, none, none, none⟩⟩ }

/-- Userinfo claims of spec scenario B. -/
def scenarioBClaims : UserClaims :=
  ⟨"u1", some "U One", none, some "user@gmail.com", none⟩

/-- Fully successful network environment (token exchange and userinfo ok). -/
def netAllOk : CallbackNet :=
  { tokenResp := ⟨true, 200, "", ⟨"AT1", some "IT1"⟩⟩
    userResp := ⟨true, 200, "", scenarioBClaims⟩ }

/-- Storage of an authenticated session with no id token: all the keys the
callback route persists, minus `keycloak_id_token`. -/
def stNoIdToken : AppStorage :=
  ⟨[(verifierKey, "v0")],
   [("access_token", "AT1"), ("user_info", "serialized-identity"),
    ("auth_provider", "keycloak"), ("identity_provider", "Google")],
   true⟩

/-- Logout input whose persisted `user_info` record is unparsable:
`JSON.parse` raises inside the `try` block. -/
def lsParseFails : LogoutState :=
  ⟨⟨[(idTokenKey, "IT1")],
    [("access_token", "AT1"), ("user_info", "not-json"),
     ("identity_provider", "Google")],
    true⟩,
   some .atParseUserInfo⟩

/-- Raw claims input refuting the normalization claim: the display name is
present but empty, so the JS `||` chain skips it. -/
def c8Input : UserClaims := ⟨"u1", some "", some "pu", some "user@gmail.com", none⟩

/-! ## Storage lemmas -/

theorem storeGet_storeSet_self (s : Store) (k v : String) :
    storeGet (storeSet s k v) k = some v := by
  induction s with
  | nil => simp [storeSet, storeGet]
  | cons hd tl ih =>
    obtain ⟨k', w⟩ := hd
    by_cases h : k' = k <;> simp [storeSet, storeGet, h, ih]

theorem storeGet_storeSet_ne (s : Store) (k k' v : String) (h : k' ≠ k) :
    storeGet (storeSet s k' v) k = storeGet s k := by
  induction s with
  | nil => simp [storeSet, storeGet, h]
  | cons hd tl ih =>
    obtain ⟨k'', w⟩ := hd
    by_cases h2 : k'' = k' <;> simp [storeSet, storeGet, h2, ih]
    · subst h2; simp [h]

theorem storeGet_storeRemove_self (s : Store) (k : String) :
    storeGet (storeRemove s k) k = none := by
  induction s with
  | nil => simp [storeRemove, storeGet]
  | cons hd tl ih =>
    obtain ⟨k', w⟩ := hd
    by_cases h : k' = k <;> simp [storeRemove, storeGet, h, ih]

theorem storeGet_storeRemove_ne (s : Store) (k k' : String) (h : k' ≠ k) :
    storeGet (storeRemove s k') k = storeGet s k := by
  induction s with
  | nil => simp [storeRemove, storeGet]
  | cons hd tl ih =>
    obtain ⟨k'', w⟩ := hd
    by_cases h2 : k'' = k'
    · subst h2
      simp [storeRemove, storeGet, h, ih]
    · by_cases h3 : k'' = k
      · subst h3
        simp [storeRemove, storeGet, h2]
      · simp [storeRemove, storeGet, h2, h3, ih]

/-- After `clearLocalStorage` the verifier, id-token, access-token,
identity-record and broker-label keys are all absent and the processed flag
is down. -/
theorem clearLocalStorage_spec (st : AppStorage) :
    storeGet (clearLocalStorage st).sessionStore verifierKey = none ∧
    storeGet (clearLocalStorage st).sessionStore idTokenKey = none ∧
    storeGet (clearLocalStorage st).localStore "access_token" = none ∧
    storeGet (clearLocalStorage st).localStore "user_info" = none ∧
    storeGet (clearLocalStorage st).localStore "auth_provider" = none ∧
    (clearLocalStorage st).callbackProcessed = false := by
  unfold clearLocalStorage
  refine ⟨?_, ?_, ?_, ?_, ?_, rfl⟩
  · rw [storeGet_storeRemove_ne _ _ _ (by decide), storeGet_storeRemove_self]
  · rw [storeGet_storeRemove_self]
  · rw [storeGet_storeRemove_ne _ _ _ (by decide),
      storeGet_storeRemove_ne _ _ _ (by decide), storeGet_storeRemove_self]
  · rw [storeGet_storeRemove_ne _ _ _ (by decide), storeGet_storeRemove_self]
  · rw [storeGet_storeRemove_self]

/-! ## Configuration lemmas -/

theorem jsOrDefault_ne_empty (o : Option String) (d : String) (h : d ≠ "") :
    jsOrDefault o d ≠ "" := by
  cases o with
  | none => simpa [jsOrDefault] using h
  | some s =>
    simp only [jsOrDefault]
    split
    · exact h
    · assumption

/-! ## C10 -/

/-- C10: the constructor substitutes non-empty defaults for every missing or
empty environment setting, so `isConfigured()` is true for every
environment, the `'Keycloak not configured'` branch of `login()` is
unreachable, and `login` always performs the verifier write and the
redirect of `buildAuthUrl`. -/
theorem login_never_not_configured (e : EnvConfig)
    (codeVerifier codeChallenge redirectUri : String)
    (loginHint : Option String) (st : AppStorage) :
    (KeycloakProvider.ofEnv e).isConfigured = true ∧
    (KeycloakProvider.ofEnv e).login codeVerifier codeChallenge redirectUri loginHint st =
      .redirect
        ((KeycloakProvider.ofEnv e).buildAuthUrl codeVerifier codeChallenge redirectUri
          "openid email profile" loginHint st).1
        ((KeycloakProvider.ofEnv e).buildAuthUrl codeVerifier codeChallenge redirectUri
          "openid email profile" loginHint st).2 ∧
    storeGet
      (((KeycloakProvider.ofEnv e).buildAuthUrl codeVerifier codeChallenge redirectUri
        "openid email profile" loginHint st).2).sessionStore verifierKey =
      some codeVerifier := by
  have hconf : (KeycloakProvider.ofEnv e).isConfigured = true := by
    have h1 := jsOrDefault_ne_empty e.keycloakUrl "http://localhost:8080/auth" (by decide)
    have h2 := jsOrDefault_ne_empty e.keycloakRealm "idp-redirector-demo" (by decide)
    have h3 := jsOrDefault_ne_empty e.keycloakClientId "react-oidc-app" (by decide)
    simp [KeycloakProvider.isConfigured, KeycloakProvider.ofEnv, h1, h2, h3]
  refine ⟨hconf, ?_, ?_⟩
  · simp [KeycloakProvider.login, hconf]
  · simp [KeycloakProvider.buildAuthUrl, storeGet_storeSet_self]

/-! ## C6 -/

/-- C6: for every redirect URI and login hint, the built authorization URL
carries the query parameters `response_type=code`, `client_id`,
`redirect_uri`, `scope`, `code_challenge` and `code_challenge_method=S256`;
when the hint derived for a gmail.com email is supplied it additionally
carries `kc_idp_hint=google`; and afterwards the fresh verifier sits in
transaction storage under the fixed verifier key. -/
theorem buildAuthUrl_params (p : KeycloakProvider)
    (codeVerifier codeChallenge redirectUri scope : String)
    (loginHint : Option String) (st : AppStorage) :
    ("response_type", "code") ∈
      (p.buildAuthUrl codeVerifier codeChallenge redirectUri scope loginHint st).1.query ∧
    ("client_id", p.clientId) ∈
      (p.buildAuthUrl codeVerifier codeChallenge redirectUri scope loginHint st).1.query ∧
    ("redirect_uri", redirectUri) ∈
      (p.buildAuthUrl codeVerifier codeChallenge redirectUri scope loginHint st).1.query ∧
    ("scope", scope) ∈
      (p.buildAuthUrl codeVerifier codeChallenge redirectUri scope loginHint st).1.query ∧
    ("code_challenge", codeChallenge) ∈
      (p.buildAuthUrl codeVerifier codeChallenge redirectUri scope loginHint st).1.query ∧
    ("code_challenge_method", "S256") ∈
      (p.buildAuthUrl codeVerifier codeChallenge redirectUri scope loginHint st).1.query ∧
    (loginHint = determineLoginHintFromEmail "user@gmail.com" →
      ("kc_idp_hint", "google") ∈
        (p.buildAuthUrl codeVerifier codeChallenge redirectUri scope loginHint st).1.query) ∧
    storeGet
      ((p.buildAuthUrl codeVerifier codeChallenge redirectUri scope loginHint st).2).sessionStore
      verifierKey = some codeVerifier := by
  have hgmail : determineLoginHintFromEmail "user@gmail.com" = some "google" := by decide
  unfold KeycloakProvider.buildAuthUrl
  refine ⟨?_, ?_, ?_, ?_, ?_, ?_, ?_, ?_⟩
  · cases loginHint <;> simp <;> split <;> simp
  · cases loginHint <;> simp <;> split <;> simp
  · cases loginHint <;> simp <;> split <;> simp
  · cases loginHint <;> simp <;> split <;> simp
  · cases loginHint <;> simp <;> split <;> simp
  · cases loginHint <;> simp <;> split <;> simp
  · intro h
    rw [hgmail] at h
    subst h
    simp
  · simp [storeGet_storeSet_self]

/-- Closed instance of `buildAuthUrl_params` at the gmail hint, discharging
its hypothesis. -/
theorem buildAuthUrl_params_witness :
    ("kc_idp_hint", "google") ∈
      ((p0.buildAuthUrl "ver1" "ch1" "http://localhost:3001/callback" "openid email profile"
        (determineLoginHintFromEmail "user@gmail.com") ⟨[], [], false⟩).1).query ∧
    storeGet
      ((p0.buildAuthUrl "ver1" "ch1" "http://localhost:3001/callback" "openid email profile"
        (determineLoginHintFromEmail "user@gmail.com") ⟨[], [], false⟩).2).sessionStore
      verifierKey = some "ver1" :=
  ⟨(buildAuthUrl_params p0 "ver1" "ch1" "http://localhost:3001/callback" "openid email profile"
      (determineLoginHintFromEmail "user@gmail.com") ⟨[], [], false⟩).2.2.2.2.2.2.1 rfl,
   (buildAuthUrl_params p0 "ver1" "ch1" "http://localhost:3001/callback" "openid email profile"
      (determineLoginHintFromEmail "user@gmail.com") ⟨[], [], false⟩).2.2.2.2.2.2.2⟩

/-! ## C9 -/

theorem attemptCount_of_processed (n : Nat) (st : CbPageState)
    (h : st.processed = true) : attemptCount st n = 0 := by
  induction n with
  | zero => rfl
  | succ n ih => simp [attemptCount, callbackTick, h, ih]

/-- C9: once the module-level already-processed flag is set, an invocation
of the component's callback handler returns immediately without any
callback-handling attempt; and over any number of successive invocations at
most one attempt (and hence at most one entry into the token-exchange path)
executes. -/
theorem callback_guard_at_most_once (st : CbPageState) (n : Nat) :
    (st.processed = true → callbackTick st = (st, .skipped)) ∧
    attemptCount st n ≤ 1 := by
  constructor
  · intro h
    simp [callbackTick, h]
  · cases hp : st.processed with
    | true =>
      rw [attemptCount_of_processed n st hp]
      exact Nat.zero_le 1
    | false =>
      cases n with
      | zero => exact Nat.zero_le 1
      | succ n =>
        have hset : ((callbackTick st).1).processed = true := by
          simp only [callbackTick, hp]
          cases st.urlError <;> cases st.urlCode <;> simp
        have hrest : attemptCount (callbackTick st).1 n = 0 :=
          attemptCount_of_processed n _ hset
        simp only [attemptCount]
        rw [hrest]
        split <;> simp

/-- Closed instance of `callback_guard_at_most_once` on an
already-processed page state. -/
theorem callback_guard_witness :
    callbackTick ⟨true, none, some "abc"⟩ = (⟨true, none, some "abc"⟩, .skipped) ∧
    attemptCount ⟨true, none, some "abc"⟩ 5 ≤ 1 :=
  ⟨(callback_guard_at_most_once ⟨true, none, some "abc"⟩ 5).1 rfl,
   (callback_guard_at_most_once ⟨true, none, some "abc"⟩ 5).2⟩

/-! ## C8 -/

/-- C8 counterexample: on claims whose display name is present but empty,
the source normalization skips it (JS `||`), and the provider constant is
`"keycloak"`, not `"broker"`; so the record differs from the claimed one in
both the `name` and the `provider` field. -/
theorem normalizeUser_counterexample :
    normalizeUser c8Input ≠ normalizeUserClaimed c8Input ∧
    (normalizeUser c8Input).name = "pu" ∧
    (normalizeUserClaimed c8Input).name = "" ∧
    (normalizeUser c8Input).provider = "keycloak" ∧
    (normalizeUserClaimed c8Input).provider = "broker" := by
  refine ⟨?_, rfl, rfl, rfl, rfl⟩
  decide

/-- C8 (amended): for every raw claims object the normalized record has
`id = sub`, `name` the display name when present and non-empty, else the
preferred-username claim when present and non-empty, else the fallback
literal `"Unknown User"`, `email`/`picture` passed through unchanged, and
`provider` fixed to the constant `"keycloak"` independent of the input. -/
theorem normalizeUser_spec (u : UserClaims) :
    normalizeUser u = identityPerAmendedClaim u := by
  obtain ⟨sub, name, pu, email, picture⟩ := u
  cases name with
  | none =>
    cases pu with
    | none => rfl
    | some p =>
      by_cases hp : p = "" <;>
        simp [normalizeUser, identityPerAmendedClaim, jsTruthy, hp]
  | some n =>
    by_cases hn : n = ""
    · cases pu with
      | none => simp [normalizeUser, identityPerAmendedClaim, jsTruthy, hn]
      | some p =>
        by_cases hp : p = "" <;>
          simp [normalizeUser, identityPerAmendedClaim, jsTruthy, hn, hp]
    · simp [normalizeUser, identityPerAmendedClaim, jsTruthy, hn]

/-! ## C4 -/

theorem splitChar_ne_nil (sep : Char) (cs : List Char) : splitChar sep cs ≠ [] := by
  cases cs with
  | nil => simp [splitChar]
  | cons c cs =>
    simp only [splitChar]
    split
    · simp
    · split <;> simp

theorem splitChar_head (sep : Char) (cs : List Char) :
    (splitChar sep cs).head? = some (cs.takeWhile (fun c => !(c == sep))) := by
  induction cs with
  | nil => simp [splitChar]
  | cons c cs ih =>
    simp only [splitChar]
    cases h : splitChar sep cs with
    | nil => exact absurd h (splitChar_ne_nil sep cs)
    | cons g gs =>
      rw [h] at ih
      simp only [List.head?, Option.some.injEq] at ih
      by_cases hc : c = sep
      · simp [hc, List.takeWhile_cons]
      · simp [hc, List.takeWhile_cons, ih]

/-- JS `str.split(sep)[1]` is the segment strictly between the first
separator and the next one (or the end), `undefined` when there is no
separator. -/
theorem splitChar_get1 (sep : Char) (cs : List Char) :
    (splitChar sep cs).get? 1 =
      match cs.dropWhile (fun c => !(c == sep)) with
      | [] => none
      | _ :: rest => some (rest.takeWhile (fun c => !(c == sep))) := by
  induction cs with
  | nil => simp [splitChar]
  | cons c cs ih =>
    simp only [splitChar]
    cases h : splitChar sep cs with
    | nil => exact absurd h (splitChar_ne_nil sep cs)
    | cons g gs =>
      by_cases hc : c = sep
      · have hg := splitChar_head sep cs
        rw [h] at hg
        simp only [List.head?, Option.some.injEq] at hg
        simp [hc, List.dropWhile_cons, hg]
      · rw [h] at ih
        simpa [hc, List.dropWhile_cons] using ih

/-- C4 counterexample: on an email with two `@`s whose first-to-second
segment is `gmail.com` but whose substring after the last `@` is the
unmapped `example.org`, the source returns the Google hint while the claim
(lookup of the substring after the last `@`) yields none. -/
theorem determineLoginHint_counterexample :
    determineLoginHintFromEmail "a@gmail.com@example.org" = some "google" ∧
    hintAfterLastAt "a@gmail.com@example.org" = none := by
  constructor <;> decide

/-- C4 (amended): for every email string, `determineLoginHintFromEmail` is
total (never throws) and returns the table lookup of the lowercased segment
between the FIRST `@` and the following `@` or the end (`split('@')[1]`) —
`gmail.com ↦ google`, `outlook.com ↦ microsoft`, none when no entry
matches — and an email containing no `@` yields none. -/
theorem determineLoginHint_spec (email : String) :
    determineLoginHintFromEmail email =
      ((segmentAfterFirstAt email.toList).map (List.map Char.toLower)).bind domainMappings ∧
    determineLoginHintFromEmail "user@gmail.com" = some "google" ∧
    determineLoginHintFromEmail "user@outlook.com" = some "microsoft" ∧
    determineLoginHintFromEmail "user@example.org" = none ∧
    determineLoginHintFromEmail "not-an-email" = none := by
  refine ⟨?_, by decide, by decide, by decide, by decide⟩
  unfold determineLoginHintFromEmail segmentAfterFirstAt
  rw [splitChar_get1]

/-! ## C1 -/

/-- C1 counterexample (spec scenario D at a concrete input): with a
verifier present, a successful token exchange and a 401 userinfo response,
`handleCallback` rejects with the user-info failure error but the verifier
is still present in transaction storage — it is neither removed on this
path nor "removed regardless of outcome" (the source removes it only after
a successful userinfo fetch). -/
theorem handleCallback_userinfo401_counterexample :
    (p0.handleCallback netUserInfo401 "code1" "http://localhost:3001/callback"
      stWithVerifier).result = .failure (.UserInfoFailed 401 "unauthorized") ∧
    storeGet
      (p0.handleCallback netUserInfo401 "code1" "http://localhost:3001/callback"
        stWithVerifier).store.sessionStore verifierKey = some "ver1" := by
  constructor <;> decide

/-- C1 (amended): when a verifier is present, the token exchange succeeds
and the userinfo fetch fails, `handleCallback` rejects with the user-info
failure error carrying the response status and body, and the verifier
REMAINS PRESENT (unchanged) in transaction storage — the source removes it
only after a successful userinfo fetch. -/
theorem handleCallback_userinfo_failure (p : KeycloakProvider) (net : CallbackNet)
    (code redirectUri v : String) (st : AppStorage)
    (hv : storeGet st.sessionStore verifierKey = some v)
    (htok : net.tokenResp.ok = true) (huser : net.userResp.ok = false) :
    (p.handleCallback net code redirectUri st).result =
      .failure (.UserInfoFailed net.userResp.status net.userResp.bodyText) ∧
    storeGet (p.handleCallback net code redirectUri st).store.sessionStore verifierKey =
      some v := by
  unfold KeycloakProvider.handleCallback
  rw [hv]
  cases hid : net.tokenResp.payload.id_token with
  | none => simp [htok, huser, hid, hv]
  | some idt =>
    simp [htok, huser, hid]
    rw [storeGet_storeSet_ne _ _ _ _ (by decide)]
    exact hv

/-- Closed instance of `handleCallback_userinfo_failure` at the scenario-D
fixture. -/
theorem handleCallback_userinfo_failure_witness :
    (p0.handleCallback netUserInfo401 "code1" "http://localhost:3001/callback"
      stWithVerifier).result = .failure (.UserInfoFailed 401 "unauthorized") ∧
    storeGet
      (p0.handleCallback netUserInfo401 "code1" "http://localhost:3001/callback"
        stWithVerifier).store.sessionStore verifierKey = some "ver1" :=
  handleCallback_userinfo_failure p0 netUserInfo401 "code1"
    "http://localhost:3001/callback" "ver1" stWithVerifier rfl rfl rfl

/-! ## C3 -/

/-- A successful `handleCallback` leaves no verifier in transaction
storage: success is only reached through the final
`removeItem('keycloak_code_verifier')`. -/
theorem handleCallback_success_removes_verifier (p : KeycloakProvider)
    (net : CallbackNet) (code redirectUri : String) (st : AppStorage) (r : CbResult)
    (h : (p.handleCallback net code redirectUri st).result = .success r) :
    storeGet (p.handleCallback net code redirectUri st).store.sessionStore verifierKey =
      none := by
  unfold KeycloakProvider.handleCallback at h ⊢
  cases hv : storeGet st.sessionStore verifierKey with
  | none => rw [hv] at h; simp at h
  | some v =>
    rw [hv] at h
    cases htok : net.tokenResp.ok with
    | false => simp [htok] at h
    | true =>
      cases huser : net.userResp.ok with
      | false => simp [htok, huser] at h
      | true => simp [htok, huser, storeGet_storeRemove_self]

/-- C3: if a first `handleCallback` with a code succeeds, a second
invocation with the same code (under any network behaviour) fails with the
missing-verifier error and issues no network request at all — in
particular no token request — while the first call's returned result is of
course the unchanged value `.success r`. -/
theorem handleCallback_replay_fails_fast (p : KeycloakProvider)
    (net net' : CallbackNet) (code redirectUri : String) (st : AppStorage) (r : CbResult)
    (h : (p.handleCallback net code redirectUri st).result = .success r) :
    (p.handleCallback net' code redirectUri
      (p.handleCallback net code redirectUri st).store).result =
      .failure .MissingVerifier ∧
    (p.handleCallback net' code redirectUri
      (p.handleCallback net code redirectUri st).store).requests = [] ∧
    (p.handleCallback net code redirectUri st).result = .success r := by
  have hnone := handleCallback_success_removes_verifier p net code redirectUri st r h
  refine ⟨?_, ?_, h⟩ <;>
    · conv_lhs => rw [KeycloakProvider.handleCallback]
      rw [hnone]

/-- Closed instance of `handleCallback_replay_fails_fast` at an
all-successful first exchange. -/
theorem handleCallback_replay_witness :
    (p0.handleCallback netAllOk "code1" "http://localhost:3001/callback"
      stWithVerifier).result =
      .success ⟨⟨"AT1", some "IT1"⟩, normalizeUser scenarioBClaims⟩ ∧
    (p0.handleCallback netUserInfo401 "code1" "http://localhost:3001/callback"
      (p0.handleCallback netAllOk "code1" "http://localhost:3001/callback"
        stWithVerifier).store).result = .failure .MissingVerifier ∧
    (p0.handleCallback netUserInfo401 "code1" "http://localhost:3001/callback"
      (p0.handleCallback netAllOk "code1" "http://localhost:3001/callback"
        stWithVerifier).store).requests = [] :=
  ⟨by decide,
   (handleCallback_replay_fails_fast p0 netAllOk netUserInfo401 "code1"
      "http://localhost:3001/callback" stWithVerifier
      ⟨⟨"AT1", some "IT1"⟩, normalizeUser scenarioBClaims⟩ (by decide)).1,
   (handleCallback_replay_fails_fast p0 netAllOk netUserInfo401 "code1"
      "http://localhost:3001/callback" stWithVerifier
      ⟨⟨"AT1", some "IT1"⟩, normalizeUser scenarioBClaims⟩ (by decide)).2.1⟩

/-! ## C2 -/

/-- C2 (code bug, evaluated): `logout()` on a state with no id token
navigates to the application root without an end-session URL and clears the
verifier, id-token, access-token and identity-record keys — but the
resolved upstream-provider-label key `identity_provider` written by the
callback route survives, because `clearLocalStorage()` removes
`auth_provider` and never `identity_provider`. -/
theorem logout_no_id_token_eval :
    (p0.logout "http://localhost:3001" ⟨stNoIdToken, none⟩).nav = .appRoot ∧
    (p0.logout "http://localhost:3001" ⟨stNoIdToken, none⟩).iframeSrc = none ∧
    storeGet (p0.logout "http://localhost:3001"
      ⟨stNoIdToken, none⟩).store.sessionStore verifierKey = none ∧
    storeGet (p0.logout "http://localhost:3001"
      ⟨stNoIdToken, none⟩).store.sessionStore idTokenKey = none ∧
    storeGet (p0.logout "http://localhost:3001"
      ⟨stNoIdToken, none⟩).store.localStore "access_token" = none ∧
    storeGet (p0.logout "http://localhost:3001"
      ⟨stNoIdToken, none⟩).store.localStore "user_info" = none ∧
    storeGet (p0.logout "http://localhost:3001"
      ⟨stNoIdToken, none⟩).store.localStore "auth_provider" = none ∧
    storeGet (p0.logout "http://localhost:3001"
      ⟨stNoIdToken, none⟩).store.localStore "identity_provider" = some "Google" := by
  decide

/-! ## C7 -/

/-- C7: `logout()` never propagates an exception (it is total, via the
catch-all branch); whenever any step of the `try` body raises — reading the
id token, parsing the persisted identity record, reading the provider
label, or building the end-session URL — the result is exactly the
fallback: `clearLocalStorage()` plus navigation to the application root,
leaving no verifier, id token, access token or identity record behind. -/
theorem logout_exception_safe (p : KeycloakProvider) (origin : String)
    (ls : LogoutState) (e : LogoutStep)
    (h : tryLogoutBody p origin ls = .error e) :
    p.logout origin ls =
      { store := clearLocalStorage ls.store, nav := .appRoot, iframeSrc := none } ∧
    (p.logout origin ls).nav = .appRoot ∧
    storeGet (p.logout origin ls).store.sessionStore verifierKey = none ∧
    storeGet (p.logout origin ls).store.sessionStore idTokenKey = none ∧
    storeGet (p.logout origin ls).store.localStore "access_token" = none ∧
    storeGet (p.logout origin ls).store.localStore "user_info" = none := by
  have hfall : p.logout origin ls =
      { store := clearLocalStorage ls.store, nav := .appRoot, iframeSrc := none } := by
    unfold KeycloakProvider.logout
    rw [h]
  have hclear := clearLocalStorage_spec ls.store
  rw [hfall]
  exact ⟨rfl, rfl, hclear.1, hclear.2.1, hclear.2.2.1, hclear.2.2.2.1⟩

/-- Closed instance of `logout_exception_safe` on a state whose persisted
identity record is unparsable (the `JSON.parse` step raises). -/
theorem logout_exception_safe_witness :
    (p0.logout "http://localhost:3001" lsParseFails).nav = .appRoot ∧
    storeGet (p0.logout "http://localhost:3001"
      lsParseFails).store.localStore "access_token" = none ∧
    storeGet (p0.logout "http://localhost:3001"
      lsParseFails).store.localStore "user_info" = none :=
  ⟨(logout_exception_safe p0 "http://localhost:3001" lsParseFails .atParseUserInfo rfl).2.1,
   (logout_exception_safe p0 "http://localhost:3001" lsParseFails .atParseUserInfo rfl).2.2.2.2.1,
   (logout_exception_safe p0 "http://localhost:3001" lsParseFails .atParseUserInfo rfl).2.2.2.2.2⟩

/-! ## C5 -/

theorem dropWhile_head_not (p : α → Bool) (l : List α) (c : α) (d : List α)
    (h : l.dropWhile p = c :: d) : p c = false := by
  induction l with
  | nil => simp [List.dropWhile] at h
  | cons x xs ih =>
    by_cases hp : p x
    · rw [List.dropWhile_cons_of_pos hp] at h
      exact ih h
    · rw [List.dropWhile_cons_of_neg hp] at h
      obtain ⟨rfl, rfl⟩ := List.cons.inj h
      simpa using hp

theorem mem_dropLast_split {α : Type} (x : α) (ys : List α) (h : x ∈ ys.dropLast) :
    ∃ u v, ys = u ++ x :: v ∧ v ≠ [] := by
  have hys : ys ≠ [] := by
    rintro rfl
    simp at h
  obtain ⟨u, t, hsplit⟩ := List.append_of_mem h
  refine ⟨u, t ++ [ys.getLast hys], ?_, by simp⟩
  conv_lhs => rw [← List.dropLast_concat_getLast hys]
  rw [hsplit]
  simp

theorem interior_dot_split (d : List Char)
    (h : ((d.drop 1).dropLast).contains '.' = true) :
    ∃ a b, d = a ++ '.' :: b ∧ a ≠ [] ∧ b ≠ [] := by
  cases d with
  | nil => simp [List.contains] at h
  | cons d0 d' =>
    have hx : '.' ∈ d'.dropLast := by
      have : ((d0 :: d').drop 1) = d' := rfl
      rw [this] at h
      exact List.elem_iff.mp h
    obtain ⟨u, v, huv, hv⟩ := mem_dropLast_split '.' d' hx
    exact ⟨d0 :: u, v, by simp [huv], by simp, hv⟩

/-- C5 counterexample: the string `"a@b."` has a non-empty local part, an
`@`, and a non-empty domain part containing a `.` (the claimed shape), yet
`isValidEmail` rejects it — the regex additionally demands a non-empty run
of `[^\s@]` characters AFTER a dot. -/
theorem isValidEmail_counterexample :
    hasClaimShape "a@b." = true ∧ isValidEmail "a@b." = false := by
  constructor <;> decide

/-- C5 (amended): `isValidEmail` returns true iff the string decomposes as
`l ++ "@" ++ a ++ "." ++ b` with `l`, `a`, `b` non-empty and every
character of them neither ECMAScript whitespace nor `@` — in particular
the domain must have a non-empty dot-separated tail, extra `@`s and
whitespace are rejected; `"a@b.com"` is accepted and `"invalid"`
rejected. -/
theorem isValidEmail_iff_shape (email : String) :
    isValidEmail email = true ↔
      ∃ l a b : List Char,
        email.toList = l ++ '@' :: (a ++ '.' :: b) ∧ l ≠ [] ∧ a ≠ [] ∧ b ≠ [] ∧
        (∀ c ∈ l, okChar c = true) ∧ (∀ c ∈ a, okChar c = true) ∧
        (∀ c ∈ b, okChar c = true) := by
  unfold isValidEmail
  rw [List.span_eq_take_drop]
  constructor
  · intro h
    cases hd : (email.toList).dropWhile okChar with
    | nil => rw [hd] at h; simp at h
    | cons c d =>
      rw [hd] at h
      simp only [Bool.and_eq_true, beq_iff_eq, Bool.not_eq_true'] at h
      obtain ⟨⟨⟨hne, hc⟩, hall⟩, hdot⟩ := h
      subst hc
      have hcs : email.toList = (email.toList).takeWhile okChar ++ '@' :: d := by
        conv_lhs => rw [← List.takeWhile_append_dropWhile (p := okChar) (l := email.toList)]
        rw [hd]
      obtain ⟨a, b, hab, ha, hb⟩ := interior_dot_split d hdot
      refine ⟨(email.toList).takeWhile okChar, a, b, ?_, ?_, ha, hb, ?_, ?_, ?_⟩
      · rw [← hab]
        exact hcs
      · intro heq
        rw [heq] at hne
        simp at hne
      · intro x hx
        exact List.mem_takeWhile_imp hx
      · intro x hx
        refine List.all_eq_true.mp hall x ?_
        rw [hab]
        exact List.mem_append_left _ hx
      · intro x hx
        refine List.all_eq_true.mp hall x ?_
        rw [hab]
        exact List.mem_append_right _ (List.mem_cons_of_mem _ hx)
  · rintro ⟨l, a, b, hcs, hl, ha, hb, hlok, haok, hbok⟩
    rw [hcs]
    have hat : ¬ okChar '@' = true := by decide
    rw [List.takeWhile_append_of_pos hlok, List.dropWhile_append_of_pos hlok,
      List.takeWhile_cons_of_neg hat, List.dropWhile_cons_of_neg hat, List.append_nil]
    have h1 : l.isEmpty = false := by
      cases l
      · exact absurd rfl hl
      · rfl
    have h2 : (a ++ '.' :: b).all okChar = true := by
      rw [List.all_eq_true]
      rintro x hx
      rcases List.mem_append.mp hx with hxa | hxr
      · exact haok x hxa
      · rcases List.mem_cons.mp hxr with rfl | hxb
        · decide
        · exact hbok x hxb
    have h3 : '.' ∈ ((a ++ '.' :: b).tail).dropLast := by
      cases a with
      | nil => exact absurd rfl ha
      | cons a0 a' =>
        have htail : ((a0 :: a') ++ '.' :: b).tail = a' ++ '.' :: b := rfl
        rw [htail, List.dropLast_append_cons]
        cases b with
        | nil => exact absurd rfl hb
        | cons b0 b' =>
          rw [List.dropLast_cons₂]
          exact List.mem_append_right _ (List.mem_cons_self _ _)
    simp [h1, h2, h3]

/-- Closed instance of `isValidEmail_iff_shape`: the spec's positive anchor
`"a@b.com"`, accepted via the shape decomposition. -/
theorem isValidEmail_iff_shape_witness : isValidEmail "a@b.com" = true :=
  (isValidEmail_iff_shape "a@b.com").mpr
    ⟨['a'], ['b'], ['c', 'o', 'm'], by decide, by decide, by decide, by decide,
      by decide, by decide, by decide⟩

end KeycloakDemo
